import Mathlib

/-!
# Verification of the response-translation core (`app/handler/response_handler.py`)

Shallow embedding of the fragment-classification / extraction algorithm and the
two response-assembly builder families of the source file, together with
theorems settling the frozen specification claims.

Modelling conventions:
* Python dicts coming from JSON are embedded as structures whose fields are
  `Option`-typed: `none` means "key absent".  `dict.get(k, d)` becomes
  `field.getD d`; bare indexing `dict[k]` on a possibly-absent key, and other
  Python exceptions, are modelled with `Except PyError`.
* `settings` (read-only configuration), the base64 decoder and the pluggable
  upload backend are external collaborators; they are collected in an `Env`
  record.  `b64decode = none` models `base64.b64decode` raising
  `binascii.Error`; `upload = none` models an upload response whose
  `success` field is false.  `uploaderAvailable = false` models
  `settings.UPLOAD_PROVIDER` naming none of the three known providers, in
  which case the source's `image_uploader` stays `None` and the later
  `.upload` attribute access raises.
* Randomness (`uuid.uuid4()`, `time.time()`, `random.sample`) is modelled by
  the `uuid`, `now` and `randIds` fields of `Env`: `randIds k` is the random
  32-character token consumed by the `k`-th appended target-format tool call.
-/

set_option autoImplicit false

namespace ResponseHandler

/-- Python exception kinds that the embedded code can raise. -/
inductive PyError where
  | binasciiError
  | attributeError
  | keyError
  deriving DecidableEq, Repr

/-- Payload of `executableCode` / `codeExecution`: `{language?, code?}`. -/
structure CodeData where
  language : Option String := none
  code : Option String := none
  deriving DecidableEq, Repr

/-- Payload of `executableCodeResult` / `codeExecutionResult`: `{outcome?, output?}`. -/
structure ResultData where
  outcome : Option String := none
  output : Option String := none
  deriving DecidableEq, Repr

/-- Payload of `functionCall`: `{name?, args?}`.  Arguments are modelled as a
string-to-string JSON object, which is the shape exercised by the source's
`json.dumps(item.get("args", None) or \x7b\x7d)`. -/
structure FunctionCall where
  name : Option String := none
  args : Option (List (String × String)) := none
  deriving DecidableEq, Repr

/-- One content fragment (`part` dict).  `inlineData` holds the `"data"`
field of the nested `inlineData` dict (the only field the source reads). -/
structure Part where
  text : Option String := none
  thought : Option Bool := none
  inlineData : Option String := none
  executableCode : Option CodeData := none
  codeExecution : Option CodeData := none
  executableCodeResult : Option ResultData := none
  codeExecutionResult : Option ResultData := none
  functionCall : Option FunctionCall := none
  deriving DecidableEq, Repr

/-- The empty part dict `\x7b\x7d` (Python-falsy). -/
def emptyPart : Part := {}

/-- Grounding chunk `\x7b"web": \x7b"title", "uri"\x7d\x7d`; `title` and `uri` are
indexed directly in the source (`grounding_chunk["web"]["title"]`), so they
are modelled as required fields of the `web` payload. -/
structure GroundingWeb where
  title : String
  uri : String
  deriving DecidableEq, Repr

/-- One grounding chunk: may or may not carry a `web` key. -/
structure GroundingChunk where
  web : Option GroundingWeb := none
  deriving DecidableEq, Repr

/-- Dict `groundingMetadata`: the source only tests for the `groundingChunks` key
and iterates it. -/
structure GroundingMeta where
  groundingChunks : Option (List GroundingChunk) := none
  deriving DecidableEq, Repr

/-- Dict `candidate["content"]`: `parts` plus the `role` the builders re-insert.
A content dict whose `parts` key is missing behaves exactly like one with
`parts = []` (`content.get("parts", [])`), so the two are identified. -/
structure Content where
  parts : List Part := []
  role : Option String := none
  deriving DecidableEq, Repr

/-- One candidate. -/
structure Candidate where
  content : Option Content := none
  groundingMetadata : Option GroundingMeta := none
  deriving DecidableEq, Repr

/-- A provider response.  Only the `candidates` key is inspected or rewritten
by the embedded code; other keys pass through untouched and are not
modelled. -/
structure Response where
  candidates : Option (List Candidate) := none
  deriving DecidableEq, Repr

/-- Provider usage metadata dict (all keys optional). -/
structure UsageMeta where
  promptTokenCount : Option Nat := none
  candidatesTokenCount : Option Nat := none
  totalTokenCount : Option Nat := none
  deriving DecidableEq, Repr

/-- Python truthiness of the `usage_metadata` dict: an empty dict is falsy. -/
def UsageMeta.isTruthy (u : UsageMeta) : Bool :=
  u.promptTokenCount.isSome || u.candidatesTokenCount.isSome || u.totalTokenCount.isSome

/-- External collaborators and configuration, read-only at call time. -/
structure Env where
  SHOW_THINKING_PROCESS : Bool
  SHOW_SEARCH_LINK : Bool
  uploaderAvailable : Bool
  b64decode : String → Option String
  upload : String → Option String
  randIds : Nat → String
  uuid : String
  now : Nat

/-- Python truthiness of a `part.get("thought")` value. -/
def pyTruthy (o : Option Bool) : Bool :=
  match o with
  | some b => b
  | none => false

/-- Is `pat` a prefix of the second list?  (Structurally recursive so that
concrete instances evaluate by `rfl`/`decide`.) -/
def listStartsWith : List Char → List Char → Bool
  | [], _ => true
  | _ :: _, [] => false
  | a :: as, b :: bs => a == b && listStartsWith as bs

/-- Does `pat` occur as a contiguous sublist? -/
def charListContains (pat : List Char) : List Char → Bool
  | [] => pat.isEmpty
  | c :: rest => listStartsWith pat (c :: rest) || charListContains pat rest

/-- Embeds `"thinking" in model` (substring containment). -/
def containsThinking (model : String) : Bool :=
  charListContains "thinking".data model.data

/-- Embeds `model.endswith("-search")`. -/
def strEndsWith (s suffix : String) : Bool :=
  listStartsWith suffix.data.reverse s.data.reverse

/-- Python `str.lower()` (ASCII case folding, the shape the source feeds it). -/
def strLower (s : String) : String :=
  String.mk (s.data.map Char.toLower)

/-- Python `str.strip()` (whitespace trim at both ends). -/
def pyStrip (s : String) : String :=
  String.mk (((s.data.dropWhile Char.isWhitespace).reverse.dropWhile
    Char.isWhitespace).reverse)

/-- Embeds `candidate.get("content", \x7b\x7d).get("parts", [])`. -/
def candidateParts (cand : Candidate) : List Part :=
  match cand.content with
  | some c => c.parts
  | none => []

/-- Embeds `_format_code_block`. -/
def format_code_block (code_data : CodeData) : String :=
  "\n\n---\n\n【代码执行】\n```" ++ strLower (code_data.language.getD "") ++ "\n"
    ++ pyStrip (code_data.code.getD "") ++ "\n```\n"

/-- Embeds `_format_execution_result`. -/
def format_execution_result (result_data : ResultData) : String :=
  "\n【执行结果】\n> outcome: " ++ result_data.outcome.getD ""
    ++ "\n\n【输出结果】\n```plaintext\n" ++ pyStrip (result_data.output.getD "")
    ++ "\n```\n\n---\n\n"

/-- Embeds `_create_search_link`. -/
def create_search_link (web : GroundingWeb) : String :=
  "\n- [" ++ web.title ++ "](" ++ web.uri ++ ")"

/-- The guard of `_add_search_link_text`: flag on, model ends in `-search`,
and the candidate carries `groundingMetadata.groundingChunks`. -/
def search_link_applies (env : Env) (model : String) (candidate : Candidate) : Bool :=
  env.SHOW_SEARCH_LINK && strEndsWith model "-search"
    && (match candidate.groundingMetadata with
        | some gm => gm.groundingChunks.isSome
        | none => false)

/-- Embeds `_add_search_link_text`. -/
def add_search_link_text (env : Env) (model : String) (candidate : Candidate)
    (text : String) : String :=
  if search_link_applies env model candidate then
    text ++ "\n\n---\n\n" ++ "**【引用来源】**\n\n"
      ++ String.join
        (((candidate.groundingMetadata.bind (fun gm => gm.groundingChunks)).getD []).map
          (fun gc =>
            match gc.web with
            | some w => create_search_link w
            | none => ""))
  else text

/-- Embeds `_extract_image_data`.  Uploader selection happens first but a missing
provider only raises at the `.upload` call, after the decode; the decode
raise is modelled first accordingly. -/
def extract_image_data (env : Env) (part : Part) : Except PyError String :=
  match part.inlineData with
  | none => .error .keyError
  | some base64_data =>
    match env.b64decode base64_data with
    | none => .error .binasciiError
    | some bytes_data =>
      if env.uploaderAvailable then
        match env.upload bytes_data with
        | some url => .ok ("\n\n![image](" ++ url ++ ")\n\n")
        | none => .ok ""
      else .error .attributeError

/-- Fragment classification in the non-streaming loop of `_extract_result`
(lines 206-217): key-presence chain
`text → inlineData → executableCode → codeExecution → executableCodeResult →
codeExecutionResult`, anything else contributes nothing. -/
def renderPartNormal (env : Env) (p : Part) : Except PyError String :=
  match p.text, p.inlineData, p.executableCode, p.codeExecution,
      p.executableCodeResult, p.codeExecutionResult with
  | some s, _, _, _, _, _ => .ok s
  | none, some _, _, _, _, _ => extract_image_data env p
  | none, none, some c, _, _, _ => .ok (format_code_block c)
  | none, none, none, some c, _, _ => .ok (format_code_block c)
  | none, none, none, none, some r, _ => .ok (format_execution_result r)
  | none, none, none, none, none, some r => .ok (format_execution_result r)
  | none, none, none, none, none, none => .ok ""

/-- Fragment classification in the streaming branch of `_extract_result`
(lines 178-191): `text → executableCode → codeExecution →
executableCodeResult → codeExecutionResult → inlineData`, else `""`. -/
def renderPartStream (env : Env) (p : Part) : Except PyError String :=
  match p.text, p.executableCode, p.codeExecution, p.executableCodeResult,
      p.codeExecutionResult, p.inlineData with
  | some s, _, _, _, _, _ => .ok s
  | none, some c, _, _, _, _ => .ok (format_code_block c)
  | none, none, some c, _, _, _ => .ok (format_code_block c)
  | none, none, none, some r, _, _ => .ok (format_execution_result r)
  | none, none, none, none, some r, _ => .ok (format_execution_result r)
  | none, none, none, none, none, some _ => extract_image_data env p
  | none, none, none, none, none, none => .ok ""

/-- The non-streaming `text +=` accumulation loop over the parts. -/
def renderPartsNormalAux (env : Env) (acc : String) : List Part → Except PyError String
  | [] => .ok acc
  | p :: rest => do
    let t ← renderPartNormal env p
    renderPartsNormalAux env (acc ++ t) rest

/-- Non-streaming text of a fragment subsequence (`text = ""` then the loop). -/
def renderPartsNormal (env : Env) (parts : List Part) : Except PyError String :=
  renderPartsNormalAux env "" parts

/-- Python falsiness of a part dict (`not part`): every modelled key absent. -/
def Part.isFalsyDict (p : Part) : Bool :=
  p.text.isNone && p.thought.isNone && p.inlineData.isNone && p.executableCode.isNone
    && p.codeExecution.isNone && p.executableCodeResult.isNone
    && p.codeExecutionResult.isNone && p.functionCall.isNone

/-- Python falsiness of a `functionCall` dict (`not item`). -/
def FunctionCall.isFalsyDict (fc : FunctionCall) : Bool :=
  fc.name.isNone && fc.args.isNone

/-- Embeds `json.dumps` on a string-to-string object (default separators). -/
def json_dumps_obj (m : List (String × String)) : String :=
  "\x7b"
    ++ String.intercalate ", " (m.map (fun kv => "\"" ++ kv.1 ++ "\": \"" ++ kv.2 ++ "\""))
    ++ "\x7d"

/-- One extracted tool call: `_extract_tool_calls` appends the raw part in
native (gemini) mode, and in target (openai) mode an object
`\x7b"index", "id", "type": "function", "function": \x7b"name", "arguments"\x7d\x7d`;
the constant `"type": "function"` field is left implicit. -/
inductive TCItem where
  | native (part : Part)
  | openai (index : Nat) (id : String) (name : String) (arguments : String)
  deriving DecidableEq, Repr

/-- Does a part make `_extract_tool_calls` append an item?  It must be a
truthy dict whose `functionCall` value is a truthy dict. -/
def partEmitsTC (p : Part) : Bool :=
  !p.isFalsyDict
    && (match p.functionCall with
        | some fc => !fc.isFalsyDict
        | none => false)

/-- Embeds `item.get("args", None) or \x7b\x7d`: absent or empty args collapse to the
empty object. -/
def argsOrEmpty (a : Option (List (String × String))) : List (String × String) :=
  a.getD []

/-- The loop body of `_extract_tool_calls`: `i` is the position in the list
passed to the function, `k` counts the target-format items appended so far
(each consumes one random id from the environment). -/
def extractToolCallsAux (env : Env) (gemini_format : Bool) :
    List Part → Nat → Nat → List TCItem
  | [], _, _ => []
  | p :: rest, i, k =>
    if p.isFalsyDict then extractToolCallsAux env gemini_format rest (i + 1) k
    else
      match p.functionCall with
      | none => extractToolCallsAux env gemini_format rest (i + 1) k
      | some item =>
        if item.isFalsyDict then extractToolCallsAux env gemini_format rest (i + 1) k
        else if gemini_format then
          .native p :: extractToolCallsAux env gemini_format rest (i + 1) (k + 1)
        else
          .openai i ("call_" ++ env.randIds k) (item.name.getD "")
              (json_dumps_obj (argsOrEmpty item.args))
            :: extractToolCallsAux env gemini_format rest (i + 1) (k + 1)

/-- Embeds `_extract_tool_calls`. -/
def extract_tool_calls (env : Env) (parts : List Part) (gemini_format : Bool) :
    List TCItem :=
  extractToolCallsAux env gemini_format parts 0 0

/-- The thinking-detection guard:
`parts[0].get("thought") or ("thinking" in model and len(parts) >= 2)`
(false on an empty sequence, which in the source is shielded by `parts and`
or by the streaming early return). -/
def thoughtFires (model : String) (parts : List Part) : Bool :=
  match parts with
  | [] => false
  | p0 :: _ => pyTruthy p0.thought || (containsThinking model && decide (2 ≤ parts.length))

/-- The `thought` component: set only when thinking fires and the
`SHOW_THINKING_PROCESS` flag is on, to `parts[0].get("text", "")`. -/
def extractThought (env : Env) (model : String) (parts : List Part) : Option String :=
  if thoughtFires model parts && env.SHOW_THINKING_PROCESS then
    some ((parts.headD emptyPart).text.getD "")
  else none

/-- Embeds `start_index`. -/
def startIndexOf (model : String) (parts : List Part) : Nat :=
  if thoughtFires model parts then 1 else 0

/-- Embeds `_extract_result`. -/
def extract_result (env : Env) (response : Response) (model : String)
    (stream : Bool) (gemini_format : Bool) :
    Except PyError (String × List TCItem × Option String) :=
  match response.candidates with
  | some (candidate :: _) =>
    let parts := candidateParts candidate
    if stream then
      match parts with
      | [] => .ok ("", [], none)
      | _ :: _ => do
        let start := startIndexOf model parts
        let t ← renderPartStream env ((parts.get? start).getD emptyPart)
        .ok (add_search_link_text env model candidate t,
          extract_tool_calls env (parts.drop start) gemini_format,
          extractThought env model parts)
    else do
      let start := startIndexOf model parts
      let t ← renderPartsNormal env (parts.drop start)
      .ok (add_search_link_text env model candidate t,
        extract_tool_calls env (parts.drop start) gemini_format,
        extractThought env model parts)
  | _ =>
    if stream then .ok ("", [], none) else .ok ("暂无返回", [], none)

/-- Python truthiness of an optional string (`if thought:`). -/
def pyTruthyStr (o : Option String) : Bool :=
  match o with
  | some s => !(s == "")
  | none => false

/-- Target-format usage block. -/
structure UsageOut where
  prompt_tokens : Nat
  completion_tokens : Nat
  total_tokens : Nat
  deriving DecidableEq, Repr

/-- The `usage_metadata.get(...)` translation used by the target builders. -/
def usageOutOf (um : UsageMeta) : UsageOut :=
  ⟨um.promptTokenCount.getD 0, um.candidatesTokenCount.getD 0, um.totalTokenCount.getD 0⟩

/-- A streaming `delta` object; the empty dict has every field `none`. -/
structure Delta where
  content : Option String := none
  role : Option String := none
  tool_calls : Option (List TCItem) := none
  deriving DecidableEq, Repr

/-- The `\x7b\x7d` delta. -/
def emptyDelta : Delta := {}

/-- A `chat.completion.chunk` envelope.  The single choice's constant
`index: 0` is left implicit; `delta` and `finish_reason` are its payload. -/
structure StreamChunk where
  id : String
  object : String
  created : Nat
  model : String
  delta : Delta
  finish_reason : Option String
  usage : Option UsageOut
  deriving DecidableEq, Repr

/-- The single choice's `message` in a full `chat.completion`:
the `tool_calls` key is always present (a plain list, possibly empty). -/
structure OAMessage where
  role : String
  content : String
  tool_calls : List TCItem
  deriving DecidableEq, Repr

/-- A full `chat.completion` envelope (single choice, constant `index: 0`
implicit).  The top-level `thought` key is optional. -/
structure NormalResp where
  id : String
  object : String
  created : Nat
  model : String
  message : OAMessage
  finish_reason : Option String
  usage : UsageOut
  thought : Option String := none
  deriving DecidableEq, Repr

/-- Embeds `_handle_openai_stream_response`. -/
def handle_openai_stream_response (env : Env) (response : Response) (model : String)
    (finish_reason : Option String) (usage_metadata : Option UsageMeta) :
    Except PyError StreamChunk := do
  let (text, tool_calls, _) ← extract_result env response model true false
  let delta : Delta :=
    if text == "" && tool_calls.isEmpty then emptyDelta
    else
      { content := some text, role := some "assistant",
        tool_calls := if tool_calls.isEmpty then none else some tool_calls }
  let usage : Option UsageOut :=
    match usage_metadata with
    | some um => if um.isTruthy then some (usageOutOf um) else none
    | none => none
  .ok ⟨"chatcmpl-" ++ env.uuid, "chat.completion.chunk", env.now, model, delta,
    finish_reason, usage⟩

/-- Embeds `_handle_openai_normal_response`.  The `usage` line indexes
`usage_metadata.get(...)` without guarding against `None`, so an absent
usage metadata raises `AttributeError` after extraction. -/
def handle_openai_normal_response (env : Env) (response : Response) (model : String)
    (finish_reason : Option String) (usage_metadata : Option UsageMeta) :
    Except PyError NormalResp := do
  let (text, tool_calls, thought) ← extract_result env response model false false
  match usage_metadata with
  | none => .error .attributeError
  | some um =>
    .ok { id := "chatcmpl-" ++ env.uuid,
          object := "chat.completion",
          created := env.now,
          model := model,
          message := ⟨"assistant", text, tool_calls⟩,
          finish_reason := finish_reason,
          usage := usageOutOf um,
          thought := if pyTruthyStr thought then thought else none }

/-- Reading a native-mode tool-call item back as a part.  The builders only
ever run extraction in native mode, so the `openai` case is unreachable
there; it falls back to the empty dict. -/
def TCItem.asPart : TCItem → Part
  | .native p => p
  | .openai _ _ _ _ => emptyPart

/-- Embeds `_handle_gemini_stream_response`: replaces `candidates[0].content`;
missing or empty `candidates` raises (`KeyError`/`IndexError`) at the
subscription. -/
def handle_gemini_stream_response (env : Env) (response : Response) (model : String)
    (stream : Bool) : Except PyError Response := do
  let (text, tool_calls, _) ← extract_result env response model stream true
  let content : Content :=
    if tool_calls.isEmpty then ⟨[{ text := some text }], some "model"⟩
    else ⟨tool_calls.map TCItem.asPart, some "model"⟩
  match response.candidates with
  | some (c :: cs) => .ok { response with candidates := some ({ c with content := some content } :: cs) }
  | _ => .error .keyError

/-- Embeds `_handle_gemini_normal_response`: same as the streaming variant but with
a thought branch (`elif thought is not None`). -/
def handle_gemini_normal_response (env : Env) (response : Response) (model : String)
    (stream : Bool) : Except PyError Response := do
  let (text, tool_calls, thought) ← extract_result env response model stream true
  let content : Content :=
    if !tool_calls.isEmpty then ⟨tool_calls.map TCItem.asPart, some "model"⟩
    else
      match thought with
      | some th => ⟨[{ text := some th, thought := some true }, { text := some text }], some "model"⟩
      | none => ⟨[{ text := some text }], some "model"⟩
  match response.candidates with
  | some (c :: cs) => .ok { response with candidates := some ({ c with content := some content } :: cs) }
  | _ => .error .keyError

/-- The handler instance fields set by both `__init__` methods and never
read or written again (`thinking_first`, `thinking_status`). -/
structure HandlerState where
  thinking_first : Bool
  thinking_status : Bool
  deriving DecidableEq, Repr

/-- The state both constructors install. -/
def initHandlerState : HandlerState := ⟨true, false⟩

/-- Embeds `GeminiResponseHandler.handle_response`: the method reads nothing from
`self`, so it is embedded as state-passing that returns the (unchanged)
instance state alongside the result. -/
def geminiHandler_handle_response (st : HandlerState) (env : Env)
    (response : Response) (model : String) (stream : Bool) :
    Except PyError Response × HandlerState :=
  ((if stream then handle_gemini_stream_response env response model stream
    else handle_gemini_normal_response env response model stream), st)

/-- Embeds `OpenAIResponseHandler.handle_response` (ditto; the `config` field is
likewise only stored, never read by this method). -/
def openaiHandler_handle_response (st : HandlerState) (env : Env)
    (response : Response) (model : String) (stream : Bool)
    (finish_reason : Option String) (usage_metadata : Option UsageMeta) :
    Except PyError (StreamChunk ⊕ NormalResp) × HandlerState :=
  ((if stream then (handle_openai_stream_response env response model finish_reason usage_metadata).map Sum.inl
    else (handle_openai_normal_response env response model finish_reason usage_metadata).map Sum.inr), st)

instance exceptDecidableEq {ε : Type _} {α : Type _} [DecidableEq ε] [DecidableEq α] :
    DecidableEq (Except ε α)
  | .ok a, .ok b =>
    if h : a = b then .isTrue (by rw [h]) else .isFalse (fun hc => h (by injection hc))
  | .ok _, .error _ => .isFalse (fun hc => Except.noConfusion hc)
  | .error _, .ok _ => .isFalse (fun hc => Except.noConfusion hc)
  | .error a, .error b =>
    if h : a = b then .isTrue (by rw [h]) else .isFalse (fun hc => h (by injection hc))

/-! ### Concrete fixtures used by counterexamples and witnesses -/

/-- A benign environment: both flags on, decoding succeeds (payload passed
through), uploads succeed with a fixed URL, fixed random ids. -/
def envA : Env :=
  { SHOW_THINKING_PROCESS := true, SHOW_SEARCH_LINK := true,
    uploaderAvailable := true,
    b64decode := fun s => some s,
    upload := fun _ => some "http://img.example/x.png",
    randIds := fun _ => "aaaaaaaaaaaaaaaaaaaaaaaaaaaaaaaa",
    uuid := "u", now := 0 }

/-- Like `envA` but the base64 decoder raises on every payload. -/
def envFailDecode : Env := { envA with b64decode := fun _ => none }

/-- Like `envA` but the upload backend reports failure on every payload. -/
def envFailUpload : Env := { envA with upload := fun _ => none }

/-- Candidates present, `parts` empty. -/
def rEmptyParts : Response := { candidates := some [{ content := some { parts := [] } }] }

/-- No `candidates` key at all. -/
def rNoCands : Response := {}

/-- One inline-media fragment followed by a text fragment. -/
def rMediaText : Response :=
  { candidates := some [{ content := some { parts :=
      [{ inlineData := some "!!" }, { text := some "tail" }] } }] }

/-- A single fragment carrying both `executableCode` and `inlineData` keys. -/
def pMix : Part :=
  { inlineData := some "AA==",
    executableCode := some { language := some "PY", code := some " x " } }

/-- Response wrapping `pMix`. -/
def rMix : Response := { candidates := some [{ content := some { parts := [pMix] } }] }

/-- A single plain-text fragment. -/
def rHello : Response :=
  { candidates := some [{ content := some { parts := [{ text := some "Hello" }] } }] }

/-- Text candidate that also carries grounding metadata with one web chunk. -/
def candSearch : Candidate :=
  { content := some { parts := [{ text := some "a" }] },
    groundingMetadata :=
      some { groundingChunks := some [{ web := some { title := "Doc", uri := "http://x" } }] } }

/-- Response wrapping `candSearch`. -/
def rSearch : Response := { candidates := some [candSearch] }

/-- Two text fragments (thinking-by-model-marker shape). -/
def rThink : Response :=
  { candidates := some [{ content := some { parts :=
      [{ text := some "reasoning" }, { text := some "answer" }] } }] }

/-- A text fragment followed by a function-call fragment. -/
def rTool : Response :=
  { candidates := some [{ content := some { parts :=
      [{ text := some "t" },
       { functionCall := some { name := some "lookup", args := some [("q", "x")] } }] } }] }

/-- First fragment tagged as thought but with no `text` key. -/
def rThoughtNoText : Response :=
  { candidates := some [{ content := some { parts :=
      [{ thought := some true }, { text := some "ans" }] } }] }

/-! ### Inversion / computation lemmas for the extractor -/

theorem string_nil_append (s : String) : "" ++ s = s := rfl

theorem string_append_nil (s : String) : s ++ "" = s := by
  rcases s with ⟨l⟩
  show String.mk (l ++ []) = String.mk l
  rw [List.append_nil]

theorem pyTruthy_iff (o : Option Bool) : pyTruthy o = true ↔ o = some true := by
  cases o with
  | none => simp [pyTruthy]
  | some b => cases b <;> simp [pyTruthy]

/-- Lemma: `_extract_result` with an empty or absent candidate list. -/
theorem extract_result_none (env : Env) (r : Response) (model : String)
    (stream gfmt : Bool) (h : r.candidates = none ∨ r.candidates = some []) :
    extract_result env r model stream gfmt =
      if stream then .ok ("", [], none) else .ok ("暂无返回", [], none) := by
  rcases h with h | h <;> simp [extract_result, h]

/-- Non-streaming `_extract_result` with a present first candidate, as a
`map` over the rendering of the post-skip subsequence. -/
theorem extract_result_nonstream (env : Env) (r : Response) (model : String)
    (gfmt : Bool) (cand : Candidate) (cs : List Candidate)
    (hr : r.candidates = some (cand :: cs)) :
    extract_result env r model false gfmt =
      (renderPartsNormal env
          ((candidateParts cand).drop (startIndexOf model (candidateParts cand)))).map
        (fun t0 =>
          (add_search_link_text env model cand t0,
           extract_tool_calls env
             ((candidateParts cand).drop (startIndexOf model (candidateParts cand))) gfmt,
           extractThought env model (candidateParts cand))) := by
  simp only [extract_result, hr]
  cases hren : renderPartsNormal env
      ((candidateParts cand).drop (startIndexOf model (candidateParts cand))) with
  | error e => simp [hren, Except.map, Bind.bind, Except.bind]
  | ok t0 => simp [hren, Except.map, Bind.bind, Except.bind]

/-- Streaming `_extract_result` with a present first candidate and nonempty
parts, as a `map` over the rendering of the single current part. -/
theorem extract_result_stream (env : Env) (r : Response) (model : String)
    (gfmt : Bool) (cand : Candidate) (cs : List Candidate) (p0 : Part) (rest : List Part)
    (hr : r.candidates = some (cand :: cs))
    (hp : candidateParts cand = p0 :: rest) :
    extract_result env r model true gfmt =
      (renderPartStream env
          (((p0 :: rest).get? (startIndexOf model (p0 :: rest))).getD emptyPart)).map
        (fun t0 =>
          (add_search_link_text env model cand t0,
           extract_tool_calls env
             ((p0 :: rest).drop (startIndexOf model (p0 :: rest))) gfmt,
           extractThought env model (p0 :: rest))) := by
  simp only [extract_result, hr, hp]
  cases hren : renderPartStream env
      (((p0 :: rest).get? (startIndexOf model (p0 :: rest))).getD emptyPart) with
  | error e => simp [hren, Except.map, Bind.bind, Except.bind]
  | ok t0 => simp [hren, Except.map, Bind.bind, Except.bind]

/-- Streaming `_extract_result` with a present candidate but empty parts. -/
theorem extract_result_stream_emptyparts (env : Env) (r : Response) (model : String)
    (gfmt : Bool) (cand : Candidate) (cs : List Candidate)
    (hr : r.candidates = some (cand :: cs))
    (hp : candidateParts cand = []) :
    extract_result env r model true gfmt = .ok ("", [], none) := by
  simp [extract_result, hr, hp]

/-- Every target-format item produced by the tool-call loop points back, via
its `index`, at a fragment of the scanned list that emits a tool call, and
carries that fragment's function name and encoded arguments. -/
theorem extractToolCallsAux_openai_mem (env : Env) :
    ∀ (parts : List Part) (i k idx : Nat) (id n a : String),
      TCItem.openai idx id n a ∈ extractToolCallsAux env false parts i k →
      ∃ m q fc, parts.get? m = some q ∧ partEmitsTC q = true ∧ idx = i + m
        ∧ q.functionCall = some fc ∧ n = fc.name.getD ""
        ∧ a = json_dumps_obj (argsOrEmpty fc.args) := by
  intro parts
  induction parts with
  | nil => intro i k idx id n a h; simp [extractToolCallsAux] at h
  | cons p rest ih =>
    intro i k idx id n a h
    by_cases hf : p.isFalsyDict
    · simp only [extractToolCallsAux, hf, if_true] at h
      obtain ⟨m, q, fc, h1, h2, h3, h4, h5, h6⟩ := ih (i + 1) k idx id n a h
      exact ⟨m + 1, q, fc, by simpa using h1, h2, by omega, h4, h5, h6⟩
    · cases hfc : p.functionCall with
      | none =>
        simp only [extractToolCallsAux, hf, if_false, hfc] at h
        obtain ⟨m, q, fc, h1, h2, h3, h4, h5, h6⟩ := ih (i + 1) k idx id n a h
        exact ⟨m + 1, q, fc, by simpa using h1, h2, by omega, h4, h5, h6⟩
      | some item =>
        by_cases hif : item.isFalsyDict
        · simp only [extractToolCallsAux, hf, if_false, hfc, hif, if_true] at h
          obtain ⟨m, q, fc, h1, h2, h3, h4, h5, h6⟩ := ih (i + 1) k idx id n a h
          exact ⟨m + 1, q, fc, by simpa using h1, h2, by omega, h4, h5, h6⟩
        · simp only [extractToolCallsAux, hf, if_false, hfc, hif, Bool.false_eq_true,
            List.mem_cons] at h
          rcases h with h | h
          · injection h with h1 h2 h3 h4
            exact ⟨0, p, item, rfl, by simp [partEmitsTC, hf, hfc, hif], by omega, hfc,
              h3, h4⟩
          · obtain ⟨m, q, fc, h1, h2, h3, h4, h5, h6⟩ := ih (i + 1) (k + 1) idx id n a h
            exact ⟨m + 1, q, fc, by simpa using h1, h2, by omega, h4, h5, h6⟩

/-- If no fragment of the list emits a tool call, the loop returns nothing. -/
theorem extractToolCallsAux_empty_of_none (env : Env) (gfmt : Bool) :
    ∀ (parts : List Part), (∀ q ∈ parts, partEmitsTC q = false) →
      ∀ i k, extractToolCallsAux env gfmt parts i k = [] := by
  intro parts
  induction parts with
  | nil => intro _ i k; rfl
  | cons p rest ih =>
    intro h i k
    have hp : partEmitsTC p = false := h p (List.mem_cons_self p rest)
    have hrest : ∀ q ∈ rest, partEmitsTC q = false :=
      fun q hq => h q (List.mem_cons_of_mem p hq)
    by_cases hf : p.isFalsyDict
    · simp only [extractToolCallsAux, hf, if_true]; exact ih hrest (i + 1) k
    · cases hfc : p.functionCall with
      | none => simp only [extractToolCallsAux, hf, if_false, hfc]; exact ih hrest (i + 1) k
      | some item =>
        by_cases hif : item.isFalsyDict
        · simp only [extractToolCallsAux, hf, if_false, hfc, hif, if_true]
          exact ih hrest (i + 1) k
        · exfalso
          simp [partEmitsTC, hf, hfc, hif] at hp

/-- With exactly one emitting fragment, at position `p`, the target-mode loop
returns exactly one tool call, indexed `i + p` and consuming the `k`-th
random id. -/
theorem extractToolCallsAux_single (env : Env) :
    ∀ (parts : List Part) (p : Nat) (part0 : Part) (fc : FunctionCall),
      parts.get? p = some part0 → part0.functionCall = some fc →
      partEmitsTC part0 = true →
      (∀ m q, parts.get? m = some q → partEmitsTC q = true → m = p) →
      ∀ i k, extractToolCallsAux env false parts i k =
        [TCItem.openai (i + p) ("call_" ++ env.randIds k) (fc.name.getD "")
          (json_dumps_obj (argsOrEmpty fc.args))] := by
  intro parts
  induction parts with
  | nil => intro p part0 fc hg; simp at hg
  | cons q rest ih =>
    intro p part0 fc hg hfc hemit huniq i k
    cases p with
    | zero =>
      simp only [List.get?_cons_zero] at hg
      injection hg with hg; subst hg
      have hqf : q.isFalsyDict = false := by
        simp only [partEmitsTC, Bool.and_eq_true, Bool.not_eq_true'] at hemit
        exact hemit.1
      have hif : fc.isFalsyDict = false := by
        simp only [partEmitsTC, Bool.and_eq_true, Bool.not_eq_true', hfc] at hemit
        simpa using hemit.2
      have hrest : ∀ x ∈ rest, partEmitsTC x = false := by
        intro x hx
        obtain ⟨m, hm⟩ := List.get?_of_mem hx
        by_contra hc
        rw [Bool.not_eq_false] at hc
        exact Nat.succ_ne_zero m (huniq (m + 1) x (by simpa using hm) hc)
      simp only [extractToolCallsAux, hqf, Bool.false_eq_true, if_false, hfc, hif,
        extractToolCallsAux_empty_of_none env false rest hrest (i + 1) (k + 1),
        Nat.add_zero]
    | succ p' =>
      simp only [List.get?_cons_succ] at hg
      have hq0 : partEmitsTC q = false := by
        by_contra hc
        rw [Bool.not_eq_false] at hc
        exact Nat.succ_ne_zero p' (huniq 0 q (by simp) hc).symm
      have huniq' : ∀ m x, rest.get? m = some x → partEmitsTC x = true → m = p' := by
        intro m x hm he
        have := huniq (m + 1) x (by simpa using hm) he
        omega
      have hrec := ih p' part0 fc hg hfc hemit huniq' (i + 1) k
      have harith : i + 1 + p' = i + (p' + 1) := by omega
      rw [harith] at hrec
      by_cases hf : q.isFalsyDict
      · simp only [extractToolCallsAux, hf, if_true]; exact hrec
      · cases hqfc : q.functionCall with
        | none => simp only [extractToolCallsAux, hf, if_false, hqfc]; exact hrec
        | some item =>
          have hif : item.isFalsyDict = true := by
            by_contra hc
            rw [Bool.not_eq_true] at hc
            simp [partEmitsTC, hf, hqfc, hc] at hq0
          simp only [extractToolCallsAux, hf, Bool.false_eq_true, if_false, hqfc, hif,
            if_true]
          exact hrec

/-! ### Determinism modulo randomness (helpers for the statelessness claim) -/

/-- The deterministic projection of a tool-call item: everything except the
synthetic random `id`. -/
def TCItem.detKey : TCItem → Part ⊕ (Nat × String × String)
  | .native p => .inl p
  | .openai i _ n a => .inr (i, n, a)

/-- The deterministic projection of an extraction result: text, thought, and
each tool call's `detKey`. -/
def detProj (e : Except PyError (String × List TCItem × Option String)) :
    Except PyError (String × List (Part ⊕ (Nat × String × String)) × Option String) :=
  e.map (fun x => (x.1, x.2.1.map TCItem.detKey, x.2.2))

/-- Replace every random source (`random.sample` ids, `uuid.uuid4()`,
`time.time()`) of an environment. -/
def Env.withRandom (env : Env) (f : Nat → String) (u : String) (n : Nat) : Env :=
  { env with randIds := f, uuid := u, now := n }

theorem renderPartNormal_withRandom (env : Env) (f : Nat → String) (u : String)
    (n : Nat) (p : Part) :
    renderPartNormal (env.withRandom f u n) p = renderPartNormal env p := rfl

theorem renderPartStream_withRandom (env : Env) (f : Nat → String) (u : String)
    (n : Nat) (p : Part) :
    renderPartStream (env.withRandom f u n) p = renderPartStream env p := rfl

theorem renderPartsNormalAux_withRandom (env : Env) (f : Nat → String) (u : String)
    (n : Nat) :
    ∀ (parts : List Part) (acc : String),
      renderPartsNormalAux (env.withRandom f u n) acc parts =
        renderPartsNormalAux env acc parts := by
  intro parts
  induction parts with
  | nil => intro acc; rfl
  | cons p rest ih =>
    intro acc
    simp only [renderPartsNormalAux, renderPartNormal_withRandom]
    cases renderPartNormal env p with
    | error e => rfl
    | ok t => simpa using ih (acc ++ t)

theorem add_search_link_text_withRandom (env : Env) (f : Nat → String) (u : String)
    (n : Nat) (model : String) (cand : Candidate) (t : String) :
    add_search_link_text (env.withRandom f u n) model cand t =
      add_search_link_text env model cand t := rfl

theorem extractThought_withRandom (env : Env) (f : Nat → String) (u : String)
    (n : Nat) (model : String) (parts : List Part) :
    extractThought (env.withRandom f u n) model parts =
      extractThought env model parts := rfl

/-- The tool-call loop's deterministic projection ignores the random-id
source entirely (even the running count of consumed ids). -/
theorem extractToolCallsAux_detKey (env : Env) (f : Nat → String) (u : String)
    (n : Nat) (gfmt : Bool) :
    ∀ (parts : List Part) (i k k' : Nat),
      (extractToolCallsAux (env.withRandom f u n) gfmt parts i k).map TCItem.detKey =
        (extractToolCallsAux env gfmt parts i k').map TCItem.detKey := by
  intro parts
  induction parts with
  | nil => intro i k k'; rfl
  | cons p rest ih =>
    intro i k k'
    by_cases hf : p.isFalsyDict
    · simp only [extractToolCallsAux, hf, if_true]; exact ih (i + 1) k k'
    · cases hfc : p.functionCall with
      | none => simp only [extractToolCallsAux, hf, if_false, hfc]; exact ih (i + 1) k k'
      | some item =>
        by_cases hif : item.isFalsyDict
        · simp only [extractToolCallsAux, hf, if_false, hfc, hif, if_true]
          exact ih (i + 1) k k'
        · cases gfmt with
          | true =>
            simp only [extractToolCallsAux, hf, Bool.false_eq_true, if_false, hfc, hif,
              if_true, List.map_cons, TCItem.detKey]
            rw [ih (i + 1) (k + 1) (k' + 1)]
          | false =>
            simp only [extractToolCallsAux, hf, Bool.false_eq_true, if_false, hfc, hif,
              List.map_cons, TCItem.detKey]
            rw [ih (i + 1) (k + 1) (k' + 1)]


/-! ### Claim C1 -/

/-- C1 (amended): for a missing or empty candidate list, non-streaming
extraction yields the placeholder "no response" text with no tool calls and
no thought, streaming extraction yields empty fields, and extraction does
not raise — but the native-format assemblers do raise on such input; and
for a present candidate whose parts sequence is missing or empty,
non-streaming extraction yields the empty text (plus a possible citation
block), not the placeholder. -/
theorem c1_no_content_amended (env : Env) (model : String) (gfmt : Bool) :
    (∀ r : Response, r.candidates = none ∨ r.candidates = some [] →
      extract_result env r model false gfmt = .ok ("暂无返回", [], none)
      ∧ extract_result env r model true gfmt = .ok ("", [], none)
      ∧ handle_gemini_normal_response env r model false = .error .keyError
      ∧ handle_gemini_stream_response env r model true = .error .keyError)
    ∧ (∀ (r : Response) (cand : Candidate) (cs : List Candidate),
        r.candidates = some (cand :: cs) → candidateParts cand = [] →
        extract_result env r model true gfmt = .ok ("", [], none)
        ∧ extract_result env r model false gfmt =
            .ok (add_search_link_text env model cand "", [], none)) := by
  constructor
  · intro r h
    have h1 := extract_result_none env r model false gfmt h
    have h2 := extract_result_none env r model true gfmt h
    have h1t := extract_result_none env r model false true h
    have h2t := extract_result_none env r model true true h
    simp only [Bool.false_eq_true, if_false, if_true] at h1 h2 h1t h2t
    refine ⟨h1, h2, ?_, ?_⟩
    · rcases h with hc | hc <;>
        simp [handle_gemini_normal_response, h1t, hc, Bind.bind, Except.bind]
    · rcases h with hc | hc <;>
        simp [handle_gemini_stream_response, h2t, hc, Bind.bind, Except.bind]
  · intro r cand cs hr hp
    refine ⟨extract_result_stream_emptyparts env r model gfmt cand cs hr hp, ?_⟩
    have h := extract_result_nonstream env r model gfmt cand cs hr
    rw [hp] at h
    simpa [renderPartsNormal, renderPartsNormalAux, Except.map, extract_tool_calls,
      extractToolCallsAux, extractThought, thoughtFires, startIndexOf] using h

/-- C1 counterexample: with a present candidate and empty parts the
non-streaming extraction returns `""` (not the claimed placeholder), and
with candidates absent the native full assembler raises instead of never
raising. -/
theorem c1_counterexample :
    extract_result envA rEmptyParts "m" false false = .ok ("", [], none)
    ∧ extract_result envA rEmptyParts "m" false false ≠ .ok ("暂无返回", [], none)
    ∧ handle_gemini_normal_response envA rNoCands "m" false = .error .keyError :=
  ⟨rfl, by decide, rfl⟩

/-- C1 witness. -/
theorem c1_witness :
    extract_result envA rNoCands "m" false false = .ok ("暂无返回", [], none)
    ∧ extract_result envA rEmptyParts "m" true false = .ok ("", [], none) :=
  ⟨((c1_no_content_amended envA "m" false).1 rNoCands (Or.inl rfl)).1,
   ((c1_no_content_amended envA "m" false).2 rEmptyParts { content := some { parts := [] } }
      [] rfl rfl).1⟩

/-! ### Claim C2 -/

/-- C2 (amended): an upload-backend failure is localized to the single
inline-media fragment — the fragment renders as the empty string and the
non-streaming loop continues over the remaining fragments unchanged — but a
base64 decode failure raises (`binascii.Error`) and aborts the whole
extraction. -/
theorem c2_upload_failure_localized (env : Env) (d b : String) (parts : List Part)
    (hd : env.b64decode d = some b) (hav : env.uploaderAvailable = true)
    (hf : env.upload b = none) :
    extract_image_data env { inlineData := some d } = .ok ""
    ∧ (∀ acc : String,
        renderPartsNormalAux env acc (({ inlineData := some d } : Part) :: parts)
          = renderPartsNormalAux env acc parts)
    ∧ (∀ d' : String, env.b64decode d' = none →
        extract_image_data env { inlineData := some d' } = .error .binasciiError) := by
  refine ⟨by simp [extract_image_data, hd, hav, hf], ?_, ?_⟩
  · intro acc
    simp only [renderPartsNormalAux, renderPartNormal, extract_image_data, hd, hav,
      if_true, hf, Bind.bind, Except.bind, string_append_nil]
  · intro d' hd'
    simp [extract_image_data, hd']

/-- C2 counterexample: a malformed base64 payload makes extraction (and the
assembly built on it) raise instead of degrading to an empty fragment and
continuing. -/
theorem c2_counterexample :
    extract_result envFailDecode rMediaText "m" false false = .error .binasciiError
    ∧ handle_gemini_normal_response envFailDecode rMediaText "m" false
        = .error .binasciiError :=
  ⟨by rfl, by rfl⟩

/-- C2 witness. -/
theorem c2_witness :
    extract_image_data envFailUpload { inlineData := some "x" } = .ok ""
    ∧ renderPartsNormalAux envFailUpload ""
        [({ inlineData := some "x" } : Part), { text := some "tail" }]
      = renderPartsNormalAux envFailUpload "" [({ text := some "tail" } : Part)] :=
  ⟨(c2_upload_failure_localized envFailUpload "x" "x" [{ text := some "tail" }]
      rfl rfl rfl).1,
   (c2_upload_failure_localized envFailUpload "x" "x" [{ text := some "tail" }]
      rfl rfl rfl).2.1 ""⟩

/-! ### Claim C3 -/

/-- C3 (code bug): the full-message target builder crashes with
`AttributeError` when the provider usage metadata is absent (`None`, the
parameter's declared default), instead of defaulting the usage counters to
zero; with a present (even empty) metadata dict it does default the three
counters to zero as the claim states. -/
theorem c3_usage_crash :
    handle_openai_normal_response envA rHello "m" (some "stop") none
      = .error .attributeError
    ∧ handle_openai_normal_response envA rHello "m" (some "stop") (some {})
      = .ok { id := "chatcmpl-u", object := "chat.completion", created := 0,
              model := "m", message := ⟨"assistant", "Hello", []⟩,
              finish_reason := some "stop", usage := ⟨0, 0, 0⟩, thought := none } :=
  ⟨by rfl, by rfl⟩

/-! ### Claim C7 -/

/-- C7 (amended): classification renders the first matching key in a fixed
priority order, but the order differs between modes: non-streaming checks
`text → inlineData → executableCode → codeExecution → execution-result
variants` while streaming demotes `inlineData` to last place; the two modes
agree whenever the fragment has a `text` key or lacks an `inlineData` key
(function-call-only fragments render as empty text in both). -/
theorem c7_priority_amended (env : Env) (p : Part) :
    (∀ s, p.text = some s → renderPartNormal env p = .ok s ∧ renderPartStream env p = .ok s)
    ∧ (p.text = none → ∀ d, p.inlineData = some d →
        renderPartNormal env p = extract_image_data env p)
    ∧ (p.text = none → ∀ c, p.executableCode = some c →
        renderPartStream env p = .ok (format_code_block c))
    ∧ (p.text = none → p.inlineData = none → ∀ c, p.executableCode = some c →
        renderPartNormal env p = .ok (format_code_block c))
    ∧ (p.inlineData = none → renderPartNormal env p = renderPartStream env p) := by
  obtain ⟨t, th, il, ec, ce, ecr, cer, fc⟩ := p
  refine ⟨?_, ?_, ?_, ?_, ?_⟩
  · intro s hs
    cases hs
    exact ⟨rfl, rfl⟩
  · intro ht d hd
    cases ht; cases hd
    rfl
  · intro ht c hc
    cases ht; cases hc
    rfl
  · intro ht hil c hc
    cases ht; cases hil; cases hc
    rfl
  · intro hil
    cases hil
    cases t <;> cases ec <;> cases ce <;> cases ecr <;> cases cer <;> rfl

/-- C7 counterexample: one fragment carrying both `executableCode` and
`inlineData` renders as the code block in streaming mode but as the
externalized image in non-streaming mode. -/
theorem c7_counterexample :
    extract_result envA rMix "m" true false
      = .ok ("\n\n---\n\n【代码执行】\n```py\nx\n```\n", [], none)
    ∧ extract_result envA rMix "m" false false
      = .ok ("\n\n![image](http://img.example/x.png)\n\n", [], none)
    ∧ ("\n\n---\n\n【代码执行】\n```py\nx\n```\n" : String)
      ≠ "\n\n![image](http://img.example/x.png)\n\n" :=
  ⟨by rfl, by rfl, by decide⟩

/-- C7 witness. -/
theorem c7_witness :
    renderPartNormal envA pMix = extract_image_data envA pMix
    ∧ renderPartStream envA pMix
      = .ok (format_code_block { language := some "PY", code := some " x " }) :=
  ⟨(c7_priority_amended envA pMix).2.1 rfl "AA==" rfl,
   (c7_priority_amended envA pMix).2.2.1 rfl { language := some "PY", code := some " x " } rfl⟩


/-! ### Claim C4 -/

/-- C4 (confirmed): the first fragment is thought-classified iff it is
explicitly tagged as thought or the model id contains the thinking marker
and there are at least two fragments; when it fires, `thought` is the
fragment's text if the `SHOW_THINKING_PROCESS` flag is on and stays unset
otherwise, and in both cases the fragment is skipped from the main text and
from tool-call scanning.  Holds in streaming and non-streaming mode. -/
theorem c4_thought_classification (env : Env) (model : String) (gfmt : Bool)
    (r : Response) (cand : Candidate) (cs : List Candidate) (p0 : Part)
    (rest : List Part)
    (hr : r.candidates = some (cand :: cs))
    (hp : candidateParts cand = p0 :: rest) :
    (thoughtFires model (p0 :: rest) = true ↔
      (p0.thought = some true ∨ (containsThinking model = true ∧ 2 ≤ (p0 :: rest).length)))
    ∧ (∀ t tcs th, extract_result env r model false gfmt = .ok (t, tcs, th) →
        th = if thoughtFires model (p0 :: rest) && env.SHOW_THINKING_PROCESS
          then some (p0.text.getD "") else none)
    ∧ (∀ t tcs th, extract_result env r model true gfmt = .ok (t, tcs, th) →
        th = if thoughtFires model (p0 :: rest) && env.SHOW_THINKING_PROCESS
          then some (p0.text.getD "") else none)
    ∧ (thoughtFires model (p0 :: rest) = true →
        ∀ t tcs th, extract_result env r model false gfmt = .ok (t, tcs, th) →
          tcs = extract_tool_calls env rest gfmt
          ∧ ∃ t0, renderPartsNormal env rest = .ok t0
              ∧ t = add_search_link_text env model cand t0) := by
  refine ⟨?_, ?_, ?_, ?_⟩
  · simp [thoughtFires, Bool.or_eq_true, Bool.and_eq_true, decide_eq_true_eq,
      pyTruthy_iff]
  · intro t tcs th hE
    rw [extract_result_nonstream env r model gfmt cand cs hr, hp] at hE
    cases hren : renderPartsNormal env
        ((p0 :: rest).drop (startIndexOf model (p0 :: rest))) with
    | error e => rw [hren] at hE; simp [Except.map] at hE
    | ok t0 =>
      rw [hren] at hE
      simp only [Except.map, Except.ok.injEq, Prod.mk.injEq] at hE
      rw [← hE.2.2]
      simp [extractThought]
  · intro t tcs th hE
    rw [extract_result_stream env r model gfmt cand cs p0 rest hr hp] at hE
    cases hren : renderPartStream env
        (((p0 :: rest).get? (startIndexOf model (p0 :: rest))).getD emptyPart) with
    | error e => rw [hren] at hE; simp [Except.map] at hE
    | ok t0 =>
      rw [hren] at hE
      simp only [Except.map, Except.ok.injEq, Prod.mk.injEq] at hE
      rw [← hE.2.2]
      simp [extractThought]
  · intro hf t tcs th hE
    rw [extract_result_nonstream env r model gfmt cand cs hr, hp] at hE
    simp only [startIndexOf, hf, if_true, List.drop_succ_cons, List.drop_zero] at hE
    cases hren : renderPartsNormal env rest with
    | error e => rw [hren] at hE; simp [Except.map] at hE
    | ok t0 =>
      rw [hren] at hE
      simp only [Except.map, Except.ok.injEq, Prod.mk.injEq] at hE
      exact ⟨hE.2.1.symm, t0, rfl, hE.1.symm⟩

/-- C4 witness. -/
theorem c4_witness :
    (thoughtFires "gemini-thinking" [({ text := some "reasoning" } : Part),
        { text := some "answer" }] = true)
    ∧ extract_result envA rThink "gemini-thinking" false false
        = .ok ("answer", [], some "reasoning") := by
  have h := c4_thought_classification envA "gemini-thinking" false rThink
    { content := some { parts := [{ text := some "reasoning" }, { text := some "answer" }] } }
    [] { text := some "reasoning" } [{ text := some "answer" }] rfl rfl
  refine ⟨h.1.mpr (Or.inr ⟨by decide, by decide⟩), ?_⟩
  have h2 := h.2.1 "answer" [] (some "reasoning") (by rfl)
  exact by rfl

/-! ### Claim C5 -/

/-- C5 (confirmed): every target-format tool call's `index` is the emitting
fragment's position in the list handed to the tool-call extractor — which
extraction always takes to be the post-thought-skip subsequence — and for a
sequence with no thought fragment and exactly one tool-call fragment, at
position `p`, target-mode extraction yields exactly one ToolCall with
`index = p` (in streaming and non-streaming mode alike). -/
theorem c5_toolcall_index (env : Env) (model : String) (r : Response)
    (cand : Candidate) (cs : List Candidate) (parts : List Part)
    (p : Nat) (part0 : Part) (fc : FunctionCall)
    (hr : r.candidates = some (cand :: cs))
    (hp : candidateParts cand = parts)
    (hnf : thoughtFires model parts = false)
    (hg : parts.get? p = some part0)
    (hfc : part0.functionCall = some fc)
    (hemit : partEmitsTC part0 = true)
    (huniq : ∀ m q, parts.get? m = some q → partEmitsTC q = true → m = p) :
    (∀ (parts' : List Part) (idx : Nat) (id n a : String),
        TCItem.openai idx id n a ∈ extract_tool_calls env parts' false →
        ∃ q, parts'.get? idx = some q ∧ partEmitsTC q = true)
    ∧ (∀ t tcs th, extract_result env r model false false = .ok (t, tcs, th) →
        tcs = [TCItem.openai p ("call_" ++ env.randIds 0) (fc.name.getD "")
          (json_dumps_obj (argsOrEmpty fc.args))])
    ∧ (∀ t tcs th, extract_result env r model true false = .ok (t, tcs, th) →
        tcs = [TCItem.openai p ("call_" ++ env.randIds 0) (fc.name.getD "")
          (json_dumps_obj (argsOrEmpty fc.args))]) := by
  have hsingle := extractToolCallsAux_single env parts p part0 fc hg hfc hemit huniq 0 0
  rw [Nat.zero_add] at hsingle
  refine ⟨?_, ?_, ?_⟩
  · intro parts' idx id n a hmem
    obtain ⟨m, q, fc', h1, h2, h3, _, _, _⟩ :=
      extractToolCallsAux_openai_mem env parts' 0 0 idx id n a hmem
    rw [Nat.zero_add] at h3
    exact ⟨q, h3 ▸ h1, h2⟩
  · intro t tcs th hE
    rw [extract_result_nonstream env r model false cand cs hr, hp] at hE
    simp only [startIndexOf, hnf, Bool.false_eq_true, if_false, List.drop_zero] at hE
    cases hren : renderPartsNormal env parts with
    | error e => rw [hren] at hE; simp [Except.map] at hE
    | ok t0 =>
      rw [hren] at hE
      simp only [Except.map, Except.ok.injEq, Prod.mk.injEq] at hE
      rw [← hE.2.1, extract_tool_calls, hsingle]
  · intro t tcs th hE
    obtain ⟨q, rest', hqr⟩ : ∃ q rest', parts = q :: rest' := by
      cases hps : parts with
      | nil => rw [hps] at hg; simp at hg
      | cons q rest' => exact ⟨q, rest', rfl⟩
    rw [hqr] at hp
    rw [extract_result_stream env r model false cand cs q rest' hr hp] at hE
    rw [← hqr] at hE
    simp only [startIndexOf, hnf, Bool.false_eq_true, if_false, List.drop_zero] at hE
    cases hren : renderPartStream env ((parts.get? 0).getD emptyPart) with
    | error e => rw [hren] at hE; simp [Except.map] at hE
    | ok t0 =>
      rw [hren] at hE
      simp only [Except.map, Except.ok.injEq, Prod.mk.injEq] at hE
      rw [← hE.2.1, extract_tool_calls, hsingle]

/-- C5 witness. -/
theorem c5_witness :
    extract_result envA rTool "m" false false
      = .ok ("t", [TCItem.openai 1 "call_aaaaaaaaaaaaaaaaaaaaaaaaaaaaaaaa" "lookup"
          "\x7b\"q\": \"x\"\x7d"], none) := by
  have h := c5_toolcall_index envA "m" rTool
    { content := some { parts := [{ text := some "t" },
        { functionCall := some { name := some "lookup", args := some [("q", "x")] } }] } }
    [] [({ text := some "t" } : Part),
        { functionCall := some { name := some "lookup", args := some [("q", "x")] } }]
    1 { functionCall := some { name := some "lookup", args := some [("q", "x")] } }
    { name := some "lookup", args := some [("q", "x")] }
    rfl rfl (by decide) (by decide) (by decide) (by decide) ?_
  · have h2 := h.2.1 "t"
      [TCItem.openai 1 "call_aaaaaaaaaaaaaaaaaaaaaaaaaaaaaaaa" "lookup" "\x7b\"q\": \"x\"\x7d"]
      none (by rfl)
    exact by rfl
  · intro m q hm he
    match m, hm with
    | 0, hm =>
      injection hm with hm
      rw [← hm] at he
      exact absurd he (by decide)
    | 1, _ => rfl
    | (n + 2), hm => simp at hm

/-! ### Claim C6 -/

/-- C6 (confirmed): the streaming builder's `delta` is the empty object
exactly when both extracted text and tool calls are empty, and omits the
`tool_calls` key whenever tool calls are empty; the full-message builder
always carries a `tool_calls` field in the message, even as an empty
list. -/
theorem c6_delta_asymmetry (env : Env) (r : Response) (model : String)
    (fr : Option String) (um : Option UsageMeta)
    (t : String) (tcs : List TCItem) (th : Option String)
    (t2 : String) (tcs2 : List TCItem) (th2 : Option String)
    (hE : extract_result env r model true false = .ok (t, tcs, th))
    (hEn : extract_result env r model false false = .ok (t2, tcs2, th2)) :
    (∃ ch : StreamChunk, handle_openai_stream_response env r model fr um = .ok ch
      ∧ (ch.delta = emptyDelta ↔ (t = "" ∧ tcs = []))
      ∧ (tcs = [] → ch.delta.tool_calls = none)
      ∧ (tcs ≠ [] → ch.delta.tool_calls = some tcs))
    ∧ (∀ u : UsageMeta, ∃ resp : NormalResp,
        handle_openai_normal_response env r model fr (some u) = .ok resp
        ∧ resp.message.tool_calls = tcs2) := by
  constructor
  · by_cases hc : (t == "" && tcs.isEmpty) = true
    · have hct : t = "" ∧ tcs = [] := by
        simpa only [Bool.and_eq_true, beq_iff_eq, List.isEmpty_iff] using hc
      refine ⟨⟨"chatcmpl-" ++ env.uuid, "chat.completion.chunk", env.now, model,
        emptyDelta, fr,
        (match um with
         | some u => if u.isTruthy then some (usageOutOf u) else none
         | none => none)⟩, ?_, ?_, ?_, ?_⟩
      · simp only [handle_openai_stream_response, hE, Bind.bind, Except.bind, hc, if_true]
      · simp [hct.1, hct.2]
      · intro _; rfl
      · intro htcs; exact absurd hct.2 htcs
    · refine ⟨⟨"chatcmpl-" ++ env.uuid, "chat.completion.chunk", env.now, model,
        { content := some t, role := some "assistant",
          tool_calls := if tcs.isEmpty then none else some tcs }, fr,
        (match um with
         | some u => if u.isTruthy then some (usageOutOf u) else none
         | none => none)⟩, ?_, ?_, ?_, ?_⟩
      · simp only [handle_openai_stream_response, hE, Bind.bind, Except.bind, hc,
          Bool.false_eq_true, if_false]
      · constructor
        · intro hd
          exfalso
          have hrole := congrArg Delta.role hd
          simp [emptyDelta] at hrole
        · intro hd
          simp only [Bool.and_eq_true, beq_iff_eq, List.isEmpty_iff] at hc
          exact absurd ⟨hd.1, hd.2⟩ hc
      · intro htcs; simp [htcs]
      · intro htcs
        have hne : tcs.isEmpty = false := by
          cases tcs with
          | nil => exact absurd rfl htcs
          | cons a as => rfl
        simp [hne]
  · intro u
    refine ⟨⟨"chatcmpl-" ++ env.uuid, "chat.completion", env.now, model,
      ⟨"assistant", t2, tcs2⟩, fr, usageOutOf u,
      if pyTruthyStr th2 then th2 else none⟩, ?_, rfl⟩
    simp only [handle_openai_normal_response, hEn, Bind.bind, Except.bind]

/-- C6 witness. -/
theorem c6_witness :
    (handle_openai_stream_response envA rHello "m" (some "stop") none).map
        (fun ch => ch.delta.tool_calls) = .ok none
    ∧ (handle_openai_normal_response envA rHello "m" (some "stop") (some {})).map
        (fun resp => resp.message.tool_calls) = .ok [] := by
  obtain ⟨⟨ch, hch, _, hnone, _⟩, hfull⟩ := c6_delta_asymmetry envA rHello "m"
    (some "stop") none "Hello" [] none "Hello" [] none (by rfl) (by rfl)
  obtain ⟨resp, hresp, htc⟩ := hfull {}
  constructor
  · rw [hch]
    simp [Except.map, hnone rfl]
  · rw [hresp]
    simp [Except.map, htc]


/-! ### Claim C8 -/

/-- C8 (amended): feeding a native full-builder output with no tool calls
and no thought back into the extractor (same model and flags) reproduces
the original text exactly, provided the citation-appending condition does
not hold for the candidate; when it holds, the round trip appends the
citation block a second time. -/
theorem c8_roundtrip (env : Env) (model : String) (r : Response)
    (cand : Candidate) (cs : List Candidate) (t : String)
    (hr : r.candidates = some (cand :: cs))
    (hE : extract_result env r model false true = .ok (t, [], none))
    (hs : search_link_applies env model cand = false) :
    ∃ r2 : Response, handle_gemini_normal_response env r model false = .ok r2
      ∧ extract_result env r2 model false true = .ok (t, [], none) := by
  refine ⟨{ r with candidates := some ({ cand with content := some ⟨[{ text := some t }], some "model"⟩ } :: cs) }, ?_, ?_⟩
  · simp only [handle_gemini_normal_response, hE, Bind.bind, Except.bind, hr,
      List.isEmpty_nil, Bool.not_true, Bool.false_eq_true, if_false]
  · have hs2 : search_link_applies env model
        { cand with content := some ⟨[{ text := some t }], some "model"⟩ } = false := hs
    have h2 := extract_result_nonstream env { r with candidates := some ({ cand with content := some ⟨[{ text := some t }], some "model"⟩ } :: cs) } model true { cand with content := some ⟨[{ text := some t }], some "model"⟩ } cs rfl
    rw [h2]
    simp only [candidateParts, startIndexOf, thoughtFires, pyTruthy, Bool.false_or,
      List.length_cons, List.length_nil]
    simp only [show (decide (2 ≤ 0 + 1) : Bool) = false from rfl, Bool.and_false,
      Bool.false_eq_true, if_false, List.drop_zero]
    simp only [renderPartsNormal, renderPartsNormalAux, renderPartNormal, Bind.bind,
      Except.bind, string_nil_append, Except.map]
    simp only [add_search_link_text, hs2, Bool.false_eq_true, if_false,
      extract_tool_calls, extractToolCallsAux, Part.isFalsyDict, Option.isNone_some,
      Bool.false_and, Bool.and_false, Bool.false_eq_true, if_false,
      extractThought, thoughtFires, pyTruthy, Bool.false_or, Bool.and_false]
    simp

/-- C8 counterexample: with the search-link flag on, a `-search` model and
grounding metadata present, the round trip appends the citation section a
second time instead of reproducing the text. -/
theorem c8_counterexample :
    extract_result envA rSearch "m-search" false true
      = .ok ("a\n\n---\n\n**【引用来源】**\n\n\n- [Doc](http://x)", [], none)
    ∧ (handle_gemini_normal_response envA rSearch "m-search" false).bind
        (fun r2 => extract_result envA r2 "m-search" false true)
      = .ok ("a\n\n---\n\n**【引用来源】**\n\n\n- [Doc](http://x)\n\n---\n\n**【引用来源】**\n\n\n- [Doc](http://x)",
          [], none)
    ∧ ("a\n\n---\n\n**【引用来源】**\n\n\n- [Doc](http://x)\n\n---\n\n**【引用来源】**\n\n\n- [Doc](http://x)" : String)
      ≠ "a\n\n---\n\n**【引用来源】**\n\n\n- [Doc](http://x)" :=
  ⟨by rfl, by rfl, by decide⟩

/-- C8 witness. -/
theorem c8_witness :
    (handle_gemini_normal_response envA rHello "m" false).bind
      (fun r2 => extract_result envA r2 "m" false true) = .ok ("Hello", [], none) := by
  obtain ⟨r2, h1, h2⟩ := c8_roundtrip envA "m" rHello
    { content := some { parts := [{ text := some "Hello" }] } } [] "Hello"
    rfl (by rfl) (by rfl)
  rw [h1]
  simpa [Except.bind] using h2

/-! ### Claim C9 -/

theorem renderPartsNormal_withRandom (env : Env) (f : Nat → String) (u : String)
    (n : Nat) (parts : List Part) :
    renderPartsNormal (env.withRandom f u n) parts = renderPartsNormal env parts :=
  renderPartsNormalAux_withRandom env f u n parts ""

theorem extract_tool_calls_detKey (env : Env) (f : Nat → String) (u : String)
    (n : Nat) (gfmt : Bool) (parts : List Part) :
    (extract_tool_calls (env.withRandom f u n) parts gfmt).map TCItem.detKey
      = (extract_tool_calls env parts gfmt).map TCItem.detKey :=
  extractToolCallsAux_detKey env f u n gfmt parts 0 0 0

/-- C9 (confirmed): the handler methods neither read nor write the instance
fields `thinking_first` / `thinking_status` — results are identical for any
two instance states, and the state is returned untouched — and the
deterministic projection of extraction (text, thought, and each tool call's
index, name and arguments) is unchanged under any replacement of the random
sources (ids, uuid, clock), so equal arguments give equal results up to
random identifiers and timestamps, regardless of prior calls. -/
theorem c9_stateless (env : Env) (r : Response) (model : String)
    (stream gfmt : Bool) (fr : Option String) (um : Option UsageMeta)
    (st st' : HandlerState) (f : Nat → String) (u : String) (n : Nat) :
    geminiHandler_handle_response st env r model stream
      = ((geminiHandler_handle_response st' env r model stream).1, st)
    ∧ openaiHandler_handle_response st env r model stream fr um
      = ((openaiHandler_handle_response st' env r model stream fr um).1, st)
    ∧ detProj (extract_result (env.withRandom f u n) r model stream gfmt)
      = detProj (extract_result env r model stream gfmt) := by
  refine ⟨rfl, rfl, ?_⟩
  cases hc : r.candidates with
  | none => simp [extract_result, hc]
  | some cl =>
    cases cl with
    | nil => simp [extract_result, hc]
    | cons cand cs =>
      cases stream with
      | false =>
        rw [extract_result_nonstream (env.withRandom f u n) r model gfmt cand cs hc,
          extract_result_nonstream env r model gfmt cand cs hc,
          renderPartsNormal_withRandom]
        cases hren : renderPartsNormal env
            ((candidateParts cand).drop (startIndexOf model (candidateParts cand))) with
        | error e => rfl
        | ok t0 =>
          have hmap := extract_tool_calls_detKey env f u n gfmt
            ((candidateParts cand).drop (startIndexOf model (candidateParts cand)))
          simp [Except.map, detProj, add_search_link_text_withRandom,
            extractThought_withRandom, hmap]
      | true =>
        cases hp : candidateParts cand with
        | nil =>
          rw [extract_result_stream_emptyparts (env.withRandom f u n) r model gfmt
              cand cs hc hp,
            extract_result_stream_emptyparts env r model gfmt cand cs hc hp]
        | cons p0 rest =>
          rw [extract_result_stream (env.withRandom f u n) r model gfmt cand cs p0 rest
              hc hp,
            extract_result_stream env r model gfmt cand cs p0 rest hc hp,
            renderPartStream_withRandom]
          cases hren : renderPartStream env
              (((p0 :: rest).get? (startIndexOf model (p0 :: rest))).getD emptyPart) with
          | error e => rfl
          | ok t0 =>
            have hmap := extract_tool_calls_detKey env f u n gfmt
              ((p0 :: rest).drop (startIndexOf model (p0 :: rest)))
            simp [Except.map, detProj, add_search_link_text_withRandom,
              extractThought_withRandom, hmap]

/-! ### Claim C10 -/

/-- C10 (confirmed): with the thinking flag on, a thought-tagged first
fragment carrying no `text` key yields `thought = some ""` (not unset); the
target full builder then omits its top-level `thought` field (truthiness
test) exactly as it does for an unset thought, while the native full
builder still prepends a `\x7btext: "", thought: true\x7d` part — absent
in the unset-thought output — so the two states are distinguishable at
the native output but not at the target output. -/
theorem c10_empty_thought (env : Env) (model : String) (r : Response)
    (cand : Candidate) (cs : List Candidate) (p0 : Part) (rest : List Part)
    (fr : Option String) (um : UsageMeta)
    (hr : r.candidates = some (cand :: cs))
    (hp : candidateParts cand = p0 :: rest)
    (hth : p0.thought = some true)
    (htx : p0.text = none)
    (hflag : env.SHOW_THINKING_PROCESS = true) :
    (∀ t tcs th, extract_result env r model false true = .ok (t, tcs, th) →
        th = some "")
    ∧ (∀ t, extract_result env r model false true = .ok (t, [], some "") →
        handle_gemini_normal_response env r model false = .ok { r with candidates := some ({ cand with content := some ⟨[{ text := some "", thought := some true }, { text := some t }], some "model"⟩ } :: cs) })
    ∧ (∀ resp, handle_openai_normal_response env r model fr (some um) = .ok resp →
        resp.thought = none)
    ∧ (∀ (r' : Response) (cand' : Candidate) (cs' : List Candidate) (t' : String),
        r'.candidates = some (cand' :: cs') →
        extract_result env r' model false true = .ok (t', [], none) →
        handle_gemini_normal_response env r' model false = .ok { r' with candidates := some ({ cand' with content := some ⟨[{ text := some t' }], some "model"⟩ } :: cs') })
    ∧ (∀ t' t'' : String,
        ([{ text := some "", thought := some true }, { text := some t' }] : List Part)
          ≠ [{ text := some t'' }]) := by
  have hfire : thoughtFires model (p0 :: rest) = true := by
    simp [thoughtFires, pyTruthy, hth]
  have hthv : extractThought env model (p0 :: rest) = some "" := by
    simp [extractThought, hfire, hflag, htx]
  refine ⟨?_, ?_, ?_, ?_, ?_⟩
  · intro t tcs th hE
    rw [extract_result_nonstream env r model true cand cs hr, hp] at hE
    cases hren : renderPartsNormal env
        ((p0 :: rest).drop (startIndexOf model (p0 :: rest))) with
    | error e => rw [hren] at hE; simp [Except.map] at hE
    | ok t0 =>
      rw [hren] at hE
      simp only [Except.map, Except.ok.injEq, Prod.mk.injEq] at hE
      rw [← hE.2.2, hthv]
  · intro t hE
    simp only [handle_gemini_normal_response, hE, Bind.bind, Except.bind, hr,
      List.isEmpty_nil, Bool.not_true, Bool.false_eq_true, if_false]
  · intro resp hresp
    simp only [handle_openai_normal_response, Bind.bind, Except.bind] at hresp
    cases hE : extract_result env r model false false with
    | error e => rw [hE] at hresp; exact absurd hresp (by simp)
    | ok x =>
      obtain ⟨t, tcs, th⟩ := x
      rw [hE] at hresp
      have hthx : th = some "" := by
        rw [extract_result_nonstream env r model false cand cs hr, hp] at hE
        cases hren : renderPartsNormal env
            ((p0 :: rest).drop (startIndexOf model (p0 :: rest))) with
        | error e => rw [hren] at hE; simp [Except.map] at hE
        | ok t0 =>
          rw [hren] at hE
          simp only [Except.map, Except.ok.injEq, Prod.mk.injEq] at hE
          rw [← hE.2.2, hthv]
      subst hthx
      simp only [Except.ok.injEq] at hresp
      rw [← hresp]
      simp [pyTruthyStr]
  · intro r' cand' cs' t' hr' hE'
    simp only [handle_gemini_normal_response, hE', Bind.bind, Except.bind, hr',
      List.isEmpty_nil, Bool.not_true, Bool.false_eq_true, if_false]
  · intro t' t''
    intro hcontra
    have := congrArg List.length hcontra
    simp at this

/-- C10 witness. -/
theorem c10_witness :
    extract_result envA rThoughtNoText "m" false true = .ok ("ans", [], some "")
    ∧ handle_gemini_normal_response envA rThoughtNoText "m" false
      = .ok { candidates := some [{ content := some ⟨[{ text := some "", thought := some true }, { text := some "ans" }], some "model"⟩ }] } := by
  have h := c10_empty_thought envA "m" rThoughtNoText
    { content := some { parts := [{ thought := some true }, { text := some "ans" }] } }
    [] { thought := some true } [{ text := some "ans" }] (some "stop") {}
    rfl rfl rfl rfl rfl
  have hE : extract_result envA rThoughtNoText "m" false true = .ok ("ans", [], some "") := by rfl
  refine ⟨hE, ?_⟩
  have h2 := h.2.1 "ans" hE
  exact h2

end ResponseHandler
